import Mathlib

/-!
Shallow embedding of the resolver layer of a GraphQL social-network backend
(users, posts, comments, likes) over a MongoDB document store.

The store is modelled as three in-memory collections (lists of documents in
insertion order) together with a counter generating fresh `_id` values for
`insertOne`.  Server-side MongoDB operators (`findOne` by filter, `$set`,
`$push`, `$pull`, `deleteOne`, `findOneAndUpdate`) compare BSON values by
value, and are modelled over plain `Nat` id values.  Client-side JavaScript
comparisons on `ObjectId` objects (`Array.prototype.includes`, `===`/`!==`)
use SameValueZero, which for objects is reference identity; these are
modelled with `JsObjectId`, an id value paired with a heap-identity tag.
-/

set_option autoImplicit false

namespace Practica5

/-- A BSON ObjectId value as persisted in the database (value identity). -/
abbrev OId := Nat

/-- A user document (`UserModel` in `types.ts`). -/
structure UserModel where
  _id : OId
  name : String
  email : String
  password : String
  posts : List OId
  comments : List OId
  likedPosts : List OId
deriving DecidableEq, Repr

/-- A post document (`PostModel` in `types.ts`). -/
structure PostModel where
  _id : OId
  content : String
  author : OId
  comments : List OId
  likes : List OId
deriving DecidableEq, Repr

/-- A comment document (`CommentModel` in `types.ts`). -/
structure CommentModel where
  _id : OId
  text : String
  author : OId
  post : OId
deriving DecidableEq, Repr

/-- The three collections of the `Red_Social` database, in insertion order,
plus the generator for the next fresh `_id`. -/
structure DB where
  users : List UserModel
  posts : List PostModel
  comments : List CommentModel
  nextId : Nat
deriving DecidableEq, Repr

/-- `GraphQLError` thrown by resolvers for business-rule violations
(the spec calls these `DomainError`). -/
structure GraphQLError where
  message : String
deriving DecidableEq, Repr

/-- A JavaScript `ObjectId` object: the underlying BSON value together with
the object's heap identity.  `===`, `!==` and `Array.prototype.includes`
(SameValueZero) compare objects by heap identity, never by value. -/
structure JsObjectId where
  val : OId
  tag : Nat
deriving DecidableEq, Repr

/-- JavaScript strict equality (`===` / SameValueZero) on `ObjectId`
objects: reference identity. -/
def jsStrictEq (a b : JsObjectId) : Bool :=
  a.tag == b.tag

/-- `Array.prototype.includes` on an array of `ObjectId` objects:
SameValueZero comparison against each element. -/
def jsIncludes (xs : List JsObjectId) (x : JsObjectId) : Bool :=
  xs.any (fun y => jsStrictEq y x)

/-- Driver deserialization of an array of stored id values: each element
becomes a fresh `ObjectId` object, the objects pairwise distinct, with heap
tags `0, 1, …`.  An `ObjectId` constructed afterwards by the resolver
(`new ObjectId(arg)`) gets a tag not among these. -/
def deserializeIds (vs : List OId) : List JsObjectId :=
  vs.enum.map (fun p => ⟨p.2, p.1⟩)

/-! ### Generic store operations on a collection (a list of documents) -/

/-- `updateOne`: apply `f` to the first document satisfying `pred`
(no-op when none matches). -/
def updateFirst {α : Type} (pred : α → Bool) (f : α → α) : List α → List α
  | [] => []
  | x :: xs => if pred x then f x :: xs else x :: updateFirst pred f xs

/-- `deleteOne`: remove the first document satisfying `pred`; also return
the reported `deletedCount` (`1` when a document matched, else `0`). -/
def deleteFirst {α : Type} (pred : α → Bool) : List α → List α × Nat
  | [] => ([], 0)
  | x :: xs =>
    if pred x then (xs, 1)
    else
      let r := deleteFirst pred xs
      (x :: r.1, r.2)

/-- `findOneAndUpdate` (default `returnDocument` behaviour): apply `f` to
the first document satisfying `pred` and return the PRIOR document
(`none` when no document matches). -/
def findOneAndUpdateList {α : Type} (pred : α → Bool) (f : α → α) :
    List α → Option α × List α
  | [] => (none, [])
  | x :: xs =>
    if pred x then (some x, f x :: xs)
    else
      let r := findOneAndUpdateList pred f xs
      (r.1, x :: r.2)

/-! ### findOne helpers (server-side value comparison) -/

/-- `UserCollection.findOne({ _id })`. -/
def findUser (db : DB) (i : OId) : Option UserModel :=
  db.users.find? (fun u => u._id == i)

/-- `UserCollection.findOne({ email })`. -/
def findUserByEmail (db : DB) (e : String) : Option UserModel :=
  db.users.find? (fun u => u.email == e)

/-- `PostCollection.findOne({ _id })`. -/
def findPost (db : DB) (i : OId) : Option PostModel :=
  db.posts.find? (fun p => p._id == i)

/-- `CommentCollection.findOne({ _id })`. -/
def findComment (db : DB) (i : OId) : Option CommentModel :=
  db.comments.find? (fun c => c._id == i)

/-! ### Query resolvers -/

namespace Query

/-- `Query.users`: every user, in store order. -/
def users (db : DB) : List UserModel := db.users

/-- `Query.user(id)`: the user with that id, or null. -/
def user (db : DB) (i : OId) : Option UserModel := findUser db i

/-- `Query.posts`: every post, in store order. -/
def posts (db : DB) : List PostModel := db.posts

/-- `Query.post(id)`: the post with that id, or null. -/
def post (db : DB) (i : OId) : Option PostModel := findPost db i

/-- `Query.comments`: every comment, in store order. -/
def comments (db : DB) : List CommentModel := db.comments

/-- `Query.comment(id)`: the comment with that id, or null. -/
def comment (db : DB) (i : OId) : Option CommentModel := findComment db i

end Query

/-! ### Mutation resolvers

Each mutation returns its GraphQL result (wrapped in `Except GraphQLError`
when the resolver can throw) together with the database after the call.
Password hashing (`bcrypt.genSalt(8)` then `bcrypt.hash`) is an external
collaborator, passed in as the function `hashFn`. -/

namespace Mutation

/-- `Mutation.createUser(input)`: reject a duplicate email, otherwise hash
the password, insert a user with empty reference arrays, and return the
constructed user. -/
def createUser (hashFn : String → String) (db : DB)
    (name email password : String) : Except GraphQLError UserModel × DB :=
  match findUserByEmail db email with
  | some _ => (.error ⟨"El email ya está registrado"⟩, db)
  | none =>
    let hashedPassword := hashFn password
    let insertedId := db.nextId
    let newDoc : UserModel :=
      ⟨insertedId, name, email, hashedPassword, [], [], []⟩
    (.ok ⟨insertedId, name, email, hashedPassword, [], [], []⟩,
     { db with users := db.users ++ [newDoc], nextId := db.nextId + 1 })

/-- `Mutation.updateUser(id, input)`: when `email` is truthy (non-empty),
look the email up; the guard `existeEmail._id !== userId` compares the
deserialized `_id` object (tag 0) with the freshly parsed
`new ObjectId(args.id)` (tag 1) by reference, then `$set` all three fields
via `findOneAndUpdate`, returning the prior document. -/
def updateUser (hashFn : String → String) (db : DB) (userId : OId)
    (name email password : String) :
    Except GraphQLError (Option UserModel) × DB :=
  let doUpdate : Except GraphQLError (Option UserModel) × DB :=
    let r := findOneAndUpdateList (fun u => u._id == userId)
      (fun u => { u with name := name, email := email,
                         password := hashFn password }) db.users
    (.ok r.1, { db with users := r.2 })
  if email ≠ "" then
    match findUserByEmail db email with
    | some existeEmail =>
      if !jsStrictEq ⟨existeEmail._id, 0⟩ ⟨userId, 1⟩ then
        (.error ⟨"El email ya está registrado por otro usuario"⟩, db)
      else doUpdate
    | none => doUpdate
  else doUpdate

/-- `Mutation.deleteUser(id)`: `deleteOne({_id})`, returning
`deletedCount === 1`. -/
def deleteUser (db : DB) (userId : OId) : Bool × DB :=
  let r := deleteFirst (fun u => u._id == userId) db.users
  (r.2 == 1, { db with users := r.1 })

/-- `Mutation.createPost(input)`: reject a missing author, otherwise insert
a post with empty comment and like arrays and return it. -/
def createPost (db : DB) (content : String) (authorId : OId) :
    Except GraphQLError PostModel × DB :=
  match findUser db authorId with
  | none => (.error ⟨"El autor no existe"⟩, db)
  | some _ =>
    let insertedId := db.nextId
    let newDoc : PostModel := ⟨insertedId, content, authorId, [], []⟩
    (.ok ⟨insertedId, content, authorId, [], []⟩,
     { db with posts := db.posts ++ [newDoc], nextId := db.nextId + 1 })

/-- `Mutation.updatePost(id, input)`: `$set` the content via
`findOneAndUpdate`, returning the prior document. -/
def updatePost (db : DB) (postId : OId) (content : String) :
    Option PostModel × DB :=
  let r := findOneAndUpdateList (fun p => p._id == postId)
    (fun p => { p with content := content }) db.posts
  (r.1, { db with posts := r.2 })

/-- `Mutation.deletePost(id)`: `deleteOne({_id})`, returning
`deletedCount === 1`. -/
def deletePost (db : DB) (postId : OId) : Bool × DB :=
  let r := deleteFirst (fun p => p._id == postId) db.posts
  (r.2 == 1, { db with posts := r.1 })

/-- `Mutation.addLikeToPost(postId, userId)`: reject a missing post; the
duplicate-like guard is `post.likes.includes(new ObjectId(userId))`, a
SameValueZero comparison of deserialized `ObjectId` objects (tags
`0 … n-1`) against a freshly constructed one (tag `n`); then `$push` the
user id and return the re-fetched post. -/
def addLikeToPost (db : DB) (postId userId : OId) :
    Except GraphQLError (Option PostModel) × DB :=
  match findPost db postId with
  | none => (.error ⟨"La publicación no existe"⟩, db)
  | some post =>
    if jsIncludes (deserializeIds post.likes) ⟨userId, post.likes.length⟩ then
      (.error ⟨"El usuario ya ha dado like a esta publicación"⟩, db)
    else
      let db1 := { db with
        posts := updateFirst (fun p => p._id == postId)
          (fun p => { p with likes := p.likes ++ [userId] }) db.posts }
      (.ok (findPost db1 postId), db1)

/-- `Mutation.removeLikeFromPost(postId, userId)`: reject a missing post;
the has-liked guard is `!post.likes.includes(new ObjectId(userId))`, the
same SameValueZero comparison as in `addLikeToPost`; then `$pull` the user
id (server-side value comparison) and return the re-fetched post. -/
def removeLikeFromPost (db : DB) (postId userId : OId) :
    Except GraphQLError (Option PostModel) × DB :=
  match findPost db postId with
  | none => (.error ⟨"La publicación no existe"⟩, db)
  | some post =>
    if !jsIncludes (deserializeIds post.likes) ⟨userId, post.likes.length⟩ then
      (.error ⟨"El usuario no ha dado like a esta publicación"⟩, db)
    else
      let db1 := { db with
        posts := updateFirst (fun p => p._id == postId)
          (fun p => { p with likes := p.likes.filter (fun l => l != userId) })
          db.posts }
      (.ok (findPost db1 postId), db1)

/-- `Mutation.createComment(input)`: reject a missing author, then a
missing post; otherwise insert the comment and `$push` its id onto the
parent post's comment array, returning the constructed comment. -/
def createComment (db : DB) (text : String) (authorId postId : OId) :
    Except GraphQLError CommentModel × DB :=
  match findUser db authorId with
  | none => (.error ⟨"El autor no existe"⟩, db)
  | some _ =>
    match findPost db postId with
    | none => (.error ⟨"El post no existe"⟩, db)
    | some _ =>
      let insertedId := db.nextId
      let newDoc : CommentModel := ⟨insertedId, text, authorId, postId⟩
      let db1 := { db with comments := db.comments ++ [newDoc],
                           nextId := db.nextId + 1 }
      let db2 := { db1 with
        posts := updateFirst (fun p => p._id == postId)
          (fun p => { p with comments := p.comments ++ [insertedId] })
          db1.posts }
      (.ok ⟨insertedId, text, authorId, postId⟩, db2)

/-- `Mutation.updateComment(id, input)`: `$set` the text via
`findOneAndUpdate`, returning the prior document. -/
def updateComment (db : DB) (commentId : OId) (text : String) :
    Option CommentModel × DB :=
  let r := findOneAndUpdateList (fun c => c._id == commentId)
    (fun c => { c with text := text }) db.comments
  (r.1, { db with comments := r.2 })

/-- `Mutation.deleteComment(id)`: reject a missing comment; `deleteOne` it,
and only when `deletedCount === 1` `$pull` its id from the parent post's
comment array (server-side value comparison) and return `true`; return
`false` on the other path. -/
def deleteComment (db : DB) (commentId : OId) :
    Except GraphQLError Bool × DB :=
  match findComment db commentId with
  | none => (.error ⟨"El comentario no existe"⟩, db)
  | some comment =>
    let r := deleteFirst (fun c => c._id == commentId) db.comments
    let db1 := { db with comments := r.1 }
    if r.2 == 1 then
      let db2 := { db1 with
        posts := updateFirst (fun p => p._id == comment.post)
          (fun p =>
            { p with comments := p.comments.filter (fun c => c != commentId) })
          db1.posts }
      (.ok true, db2)
    else
      (.ok false, db1)

end Mutation

/-! ### Relationship (field) resolvers -/

namespace User

/-- `User.posts`: `PostCollection.find({ author: parent._id })`. -/
def posts (db : DB) (parent : UserModel) : List PostModel :=
  db.posts.filter (fun p => p.author == parent._id)

/-- `User.comments`: `CommentCollection.find({ author: parent._id })`. -/
def comments (db : DB) (parent : UserModel) : List CommentModel :=
  db.comments.filter (fun c => c.author == parent._id)

/-- `User.likedPosts`: `PostCollection.find({ likes: parent._id })` — an
array-field filter matching posts whose like array contains the value. -/
def likedPosts (db : DB) (parent : UserModel) : List PostModel :=
  db.posts.filter (fun p => p.likes.contains parent._id)

end User

namespace Post

/-- `Post.author`: `UserCollection.findOne({ _id: parent.author })`. -/
def author (db : DB) (parent : PostModel) : Option UserModel :=
  findUser db parent.author

/-- `Post.comments`: `CommentCollection.find({ post: parent._id })`. -/
def comments (db : DB) (parent : PostModel) : List CommentModel :=
  db.comments.filter (fun c => c.post == parent._id)

/-- `Post.likes`: `UserCollection.find({ _id: { $in: parent.likes } })`. -/
def likes (db : DB) (parent : PostModel) : List UserModel :=
  db.users.filter (fun u => parent.likes.contains u._id)

end Post

namespace Comment

/-- `Comment.author`: `UserCollection.findOne({ _id: parent.author })`. -/
def author (db : DB) (parent : CommentModel) : Option UserModel :=
  findUser db parent.author

/-- `Comment.post`: `PostCollection.findOne({ _id: parent.post })`. -/
def post (db : DB) (parent : CommentModel) : Option PostModel :=
  findPost db parent.post

end Comment

/-- All user documents in the store have their three reference arrays
(`posts`, `comments`, `likedPosts`) empty — exactly as `createUser` wrote
them. -/
def UsersRefArraysEmpty (db : DB) : Prop :=
  ∀ u ∈ db.users, u.posts = [] ∧ u.comments = [] ∧ u.likedPosts = []

/-! ## Concrete fixtures -/

/-- One user Ana (id 0, email `ana@x.com`) and one post by Ana (id 1, no
likes, no comments). -/
def dbAna : DB :=
  ⟨[⟨0, "Ana", "ana@x.com", "h", [], [], []⟩], [⟨1, "hi", 0, [], []⟩], [], 2⟩

/-- Like `dbAna`, but Ana's id is already in the post's like array. -/
def dbLiked : DB :=
  ⟨[⟨0, "Ana", "ana@x.com", "h", [], [], []⟩], [⟨1, "hi", 0, [], [0]⟩], [], 2⟩

/-- Like `dbAna`, plus one comment (id 2) by Ana on post 1, the comment id
recorded in the post's comment array. -/
def dbWithComment : DB :=
  ⟨[⟨0, "Ana", "ana@x.com", "h", [], [], []⟩], [⟨1, "hi", 0, [2], []⟩],
   [⟨2, "nice", 0, 1⟩], 3⟩

/-! ## Helper lemmas about the store operations -/

theorem findOneAndUpdateList_fst {α : Type} (pred : α → Bool) (f : α → α)
    (l : List α) : (findOneAndUpdateList pred f l).1 = l.find? pred := by
  induction l with
  | nil => rfl
  | cons x xs ih =>
    by_cases h : pred x
    · simp [findOneAndUpdateList, h]
    · simp [findOneAndUpdateList, h, ih]

theorem find?_findOneAndUpdateList_snd {α : Type} (pred : α → Bool)
    (f : α → α) (hf : ∀ x, pred x = true → pred (f x) = true) (l : List α) :
    ((findOneAndUpdateList pred f l).2).find? pred = (l.find? pred).map f := by
  induction l with
  | nil => rfl
  | cons x xs ih =>
    by_cases h : pred x
    · simp [findOneAndUpdateList, h, hf x h]
    · simp [findOneAndUpdateList, h, ih]

theorem find?_updateFirst {α : Type} (pred : α → Bool) (f : α → α)
    (hf : ∀ x, pred x = true → pred (f x) = true) (l : List α) :
    (updateFirst pred f l).find? pred = (l.find? pred).map f := by
  induction l with
  | nil => rfl
  | cons x xs ih =>
    by_cases h : pred x
    · simp [updateFirst, h, hf x h]
    · simp [updateFirst, h, ih]

theorem deleteFirst_of_none {α : Type} (pred : α → Bool) (l : List α)
    (h : l.find? pred = none) : deleteFirst pred l = (l, 0) := by
  induction l with
  | nil => rfl
  | cons x xs ih =>
    rw [List.find?_eq_none] at h
    have hx : pred x = false := by
      have := h x (by simp)
      simpa using this
    have hxs : xs.find? pred = none := by
      rw [List.find?_eq_none]
      exact fun y hy => h y (by simp [hy])
    simp [deleteFirst, hx, ih hxs]

theorem deleteFirst_count_eq_one {α : Type} (pred : α → Bool) (l : List α) :
    (deleteFirst pred l).2 = 1 ↔ ∃ x ∈ l, pred x = true := by
  induction l with
  | nil => simp [deleteFirst]
  | cons x xs ih =>
    by_cases h : pred x
    · have e : (deleteFirst pred (x :: xs)).2 = 1 := by simp [deleteFirst, h]
      rw [e]
      exact iff_of_true rfl ⟨x, by simp, h⟩
    · have e : (deleteFirst pred (x :: xs)).2 = (deleteFirst pred xs).2 := by
        simp [deleteFirst, h]
      rw [e, ih]
      constructor
      · rintro ⟨y, hy, hpy⟩
        exact ⟨y, List.mem_cons_of_mem _ hy, hpy⟩
      · rintro ⟨y, hy, hpy⟩
        rcases List.mem_cons.mp hy with rfl | hy'
        · exact absurd hpy (by simpa using h)
        · exact ⟨y, hy', hpy⟩

theorem find?_deleteFirst_of_unique {α : Type} (pred : α → Bool) (l : List α)
    (h : (l.filter pred).length ≤ 1) :
    ((deleteFirst pred l).1).find? pred = none := by
  induction l with
  | nil => rfl
  | cons x xs ih =>
    by_cases hx : pred x
    · have hnil : xs.filter pred = [] := by
        rw [List.filter_cons, if_pos hx] at h
        simp only [List.length_cons] at h
        exact List.length_eq_zero.mp (by omega)
      rw [List.find?_eq_none]
      intro y hy
      have := List.filter_eq_nil_iff.mp hnil y
      simp [deleteFirst, hx] at hy
      exact fun hp => this hy hp
    · have hh : (xs.filter pred).length ≤ 1 := by
        simpa [List.filter_cons, hx] using h
      simp [deleteFirst, hx, ih hh]

theorem mem_updateFirst {α : Type} {pred : α → Bool} {f : α → α}
    {l : List α} {y : α} (h : y ∈ updateFirst pred f l) :
    y ∈ l ∨ ∃ x ∈ l, y = f x := by
  induction l with
  | nil => simp [updateFirst] at h
  | cons x xs ih =>
    by_cases hx : pred x
    · simp [updateFirst, hx] at h
      rcases h with h | h
      · exact Or.inr ⟨x, by simp, h⟩
      · exact Or.inl (by simp [h])
    · simp [updateFirst, hx] at h
      rcases h with h | h
      · exact Or.inl (by simp [h])
      · rcases ih h with h' | ⟨z, hz, hyz⟩
        · exact Or.inl (by simp [h'])
        · exact Or.inr ⟨z, by simp [hz], hyz⟩

theorem mem_findOneAndUpdateList_snd {α : Type} {pred : α → Bool}
    {f : α → α} {l : List α} {y : α}
    (h : y ∈ (findOneAndUpdateList pred f l).2) :
    y ∈ l ∨ ∃ x ∈ l, y = f x := by
  induction l with
  | nil => simp [findOneAndUpdateList] at h
  | cons x xs ih =>
    by_cases hx : pred x
    · simp [findOneAndUpdateList, hx] at h
      rcases h with h | h
      · exact Or.inr ⟨x, by simp, h⟩
      · exact Or.inl (by simp [h])
    · simp [findOneAndUpdateList, hx] at h
      rcases h with h | h
      · exact Or.inl (by simp [h])
      · rcases ih h with h' | ⟨z, hz, hyz⟩
        · exact Or.inl (by simp [h'])
        · exact Or.inr ⟨z, by simp [hz], hyz⟩

theorem mem_deleteFirst_fst {α : Type} {pred : α → Bool} {l : List α}
    {y : α} (h : y ∈ (deleteFirst pred l).1) : y ∈ l := by
  induction l with
  | nil => simp [deleteFirst] at h
  | cons x xs ih =>
    by_cases hx : pred x
    · simp [deleteFirst, hx] at h
      simp [h]
    · simp [deleteFirst, hx] at h
      rcases h with h | h
      · simp [h]
      · simp [ih h]

/-! ## Claims -/

/-- Claim C1 (refuted: code bug).  The claim says a second
`addLikeToPost` with the same `(postId, userId)` fails with the
duplicate-like error and leaves the like-set unchanged.  In the code the
guard `post.likes.includes(new ObjectId(userId))` compares `ObjectId`
objects by reference (SameValueZero), so it is always false: the second
call succeeds and appends `userId` a second time, and the like-set ends as
`[0, 0]`. -/
theorem addLikeToPost_duplicate_not_rejected :
    (Mutation.addLikeToPost (Mutation.addLikeToPost dbAna 1 0).2 1 0).1 =
      .ok (some ⟨1, "hi", 0, [], [0, 0]⟩) ∧
    findPost (Mutation.addLikeToPost (Mutation.addLikeToPost dbAna 1 0).2 1 0).2 1 =
      some ⟨1, "hi", 0, [], [0, 0]⟩ :=
  ⟨rfl, rfl⟩

/-- Claim C2 (refuted: code bug).  The claim says `removeLikeFromPost`
fails with the has-not-liked error iff `userId` is absent from the
like-set, and removes the entry when present.  In the code the guard
`!post.likes.includes(new ObjectId(userId))` compares `ObjectId` objects
by reference, so it is always true: even with `userId` present in the
like-set the call fails with the has-not-liked error and the store is
unchanged. -/
theorem removeLikeFromPost_always_rejects :
    (∃ p, findPost dbLiked 1 = some p ∧ p.likes.contains 0 = true) ∧
    Mutation.removeLikeFromPost dbLiked 1 0 =
      (.error ⟨"El usuario no ha dado like a esta publicación"⟩, dbLiked) :=
  ⟨⟨⟨1, "hi", 0, [], [0]⟩, rfl, rfl⟩, rfl⟩

/-- Claim C3 (refuted: code bug).  The claim says the email-uniqueness
check in `updateUser` excludes the updated user itself, so a user may
update supplying their own current email without error.  In the code the
guard `existeEmail._id !== userId` compares two distinct `ObjectId`
objects by reference, so it is always true: user 0 updating with their own
email `ana@x.com` is rejected with the registered-by-another-user
error. -/
theorem updateUser_own_email_rejected :
    (∃ u, findUser dbAna 0 = some u ∧ u.email = "ana@x.com") ∧
    (Mutation.updateUser (fun s => s) dbAna 0 "Ana" "ana@x.com" "pw").1 =
      .error ⟨"El email ya está registrado por otro usuario"⟩ :=
  ⟨⟨⟨0, "Ana", "ana@x.com", "h", [], [], []⟩, rfl, rfl⟩, rfl⟩

/-- Claim C4: `createUser` fails with the duplicate-email error and
inserts no row whenever some user already holds that email; otherwise it
inserts exactly one new user, whose `posts`, `comments` and `likedPosts`
arrays are empty and whose password field is the (salted) hash of the
input password, and returns that created user. -/
theorem createUser_spec (hashFn : String → String) (db : DB) :
    (∀ name email password : String, (∃ u ∈ db.users, u.email = email) →
      Mutation.createUser hashFn db name email password =
        (.error ⟨"El email ya está registrado"⟩, db)) ∧
    (∀ name email password : String, (∀ u ∈ db.users, u.email ≠ email) →
      ∃ newUser : UserModel,
        Mutation.createUser hashFn db name email password =
          (.ok newUser,
           { db with users := db.users ++ [newUser],
                     nextId := db.nextId + 1 }) ∧
        newUser.name = name ∧ newUser.email = email ∧
        newUser.password = hashFn password ∧ newUser.posts = [] ∧
        newUser.comments = [] ∧ newUser.likedPosts = []) := by
  constructor
  · rintro name email password ⟨u, hu, he⟩
    have hsome : (findUserByEmail db email).isSome := by
      rw [findUserByEmail, List.find?_isSome]
      exact ⟨u, hu, by simp [he]⟩
    rcases he' : findUserByEmail db email with _ | v
    · rw [he'] at hsome
      simp at hsome
    · simp [Mutation.createUser, he']
  · intro name email password h
    have hn : findUserByEmail db email = none := by
      rw [findUserByEmail, List.find?_eq_none]
      intro u hu
      simpa using h u hu
    exact ⟨⟨db.nextId, name, email, hashFn password, [], [], []⟩,
      by simp [Mutation.createUser, hn], rfl, rfl, rfl, rfl, rfl, rfl⟩

/-- Witness for C4: on `dbAna`, creating with the taken email
`ana@x.com` fails, and creating with the fresh email `bob@x.com`
succeeds. -/
theorem createUser_spec_witness :
    ((∃ u ∈ dbAna.users, u.email = "ana@x.com") ∧
      Mutation.createUser (fun s => s) dbAna "Bob" "ana@x.com" "pw" =
        (.error ⟨"El email ya está registrado"⟩, dbAna)) ∧
    ((∀ u ∈ dbAna.users, u.email ≠ "bob@x.com") ∧
      ∃ newUser : UserModel,
        Mutation.createUser (fun s => s) dbAna "Bob" "bob@x.com" "pw" =
          (.ok newUser,
           { dbAna with users := dbAna.users ++ [newUser],
                        nextId := dbAna.nextId + 1 }) ∧
        newUser.name = "Bob" ∧ newUser.email = "bob@x.com" ∧
        newUser.password = (fun s : String => s) "pw" ∧ newUser.posts = [] ∧
        newUser.comments = [] ∧ newUser.likedPosts = []) :=
  ⟨⟨by decide, (createUser_spec (fun s => s) dbAna).1 "Bob" "ana@x.com" "pw"
      (by decide)⟩,
   ⟨by decide, (createUser_spec (fun s => s) dbAna).2 "Bob" "bob@x.com" "pw"
      (by decide)⟩⟩

/-- Claim C5: for all valid create inputs, the returned entity's fields
equal the input fields (the password stored as the hash of the input
password), and a subsequent get-by-id query with the returned identifier
yields the same entity (create/get round-trip), for `createUser`,
`createPost` and `createComment`. -/
theorem create_get_roundtrip (hashFn : String → String) (db : DB) :
    (∀ name email password : String, (∀ u ∈ db.users, u.email ≠ email) →
      (∀ u ∈ db.users, u._id ≠ db.nextId) →
      ∃ newUser : UserModel,
        (Mutation.createUser hashFn db name email password).1 = .ok newUser ∧
        newUser.name = name ∧ newUser.email = email ∧
        newUser.password = hashFn password ∧
        Query.user (Mutation.createUser hashFn db name email password).2
          newUser._id = some newUser) ∧
    (∀ (content : String) (authorId : OId), (findUser db authorId).isSome →
      (∀ p ∈ db.posts, p._id ≠ db.nextId) →
      ∃ newPost : PostModel,
        (Mutation.createPost db content authorId).1 = .ok newPost ∧
        newPost.content = content ∧ newPost.author = authorId ∧
        Query.post (Mutation.createPost db content authorId).2 newPost._id =
          some newPost) ∧
    (∀ (text : String) (authorId postId : OId),
      (findUser db authorId).isSome → (findPost db postId).isSome →
      (∀ c ∈ db.comments, c._id ≠ db.nextId) →
      ∃ newComment : CommentModel,
        (Mutation.createComment db text authorId postId).1 = .ok newComment ∧
        newComment.text = text ∧ newComment.author = authorId ∧
        newComment.post = postId ∧
        Query.comment (Mutation.createComment db text authorId postId).2
          newComment._id = some newComment) := by
  refine ⟨?_, ?_, ?_⟩
  · intro name email password hmail hid
    have hn : findUserByEmail db email = none := by
      rw [findUserByEmail, List.find?_eq_none]
      intro u hu
      simpa using hmail u hu
    have hidn : db.users.find? (fun u => u._id == db.nextId) = none := by
      rw [List.find?_eq_none]
      intro u hu
      simpa using hid u hu
    refine ⟨⟨db.nextId, name, email, hashFn password, [], [], []⟩,
      ?_, rfl, rfl, rfl, ?_⟩
    · simp [Mutation.createUser, hn]
    · simp [Query.user, findUser, Mutation.createUser, hn, List.find?_append,
        hidn]
  · intro content authorId ha hid
    rcases ha' : findUser db authorId with _ | a
    · rw [ha'] at ha
      simp at ha
    · have hidn : db.posts.find? (fun p => p._id == db.nextId) = none := by
        rw [List.find?_eq_none]
        intro p hp
        simpa using hid p hp
      refine ⟨⟨db.nextId, content, authorId, [], []⟩, ?_, rfl, rfl, ?_⟩
      · simp [Mutation.createPost, ha']
      · simp [Query.post, findPost, Mutation.createPost, ha',
          List.find?_append, hidn]
  · intro text authorId postId ha hp hid
    rcases ha' : findUser db authorId with _ | a
    · rw [ha'] at ha
      simp at ha
    · rcases hp' : findPost db postId with _ | pp
      · rw [hp'] at hp
        simp at hp
      · have hidn : db.comments.find? (fun c => c._id == db.nextId) = none := by
          rw [List.find?_eq_none]
          intro c hc
          simpa using hid c hc
        refine ⟨⟨db.nextId, text, authorId, postId⟩, ?_, rfl, rfl, rfl, ?_⟩
        · simp [Mutation.createComment, ha', hp']
        · simp [Query.comment, findComment, Mutation.createComment, ha', hp',
            List.find?_append, hidn]

/-- Witness for C5: on `dbAna`, create a user with a fresh email, a post
authored by user 0, and a comment by user 0 on post 1; each is found again
by get-by-id. -/
theorem create_get_roundtrip_witness :
    ((∀ u ∈ dbAna.users, u.email ≠ "bob@x.com") ∧
     (∀ u ∈ dbAna.users, u._id ≠ dbAna.nextId) ∧
     ∃ newUser : UserModel,
       (Mutation.createUser (fun s => s) dbAna "Bob" "bob@x.com" "pw").1 =
         .ok newUser ∧
       newUser.name = "Bob" ∧ newUser.email = "bob@x.com" ∧
       newUser.password = (fun s : String => s) "pw" ∧
       Query.user (Mutation.createUser (fun s => s) dbAna "Bob" "bob@x.com"
         "pw").2 newUser._id = some newUser) ∧
    ((findUser dbAna 0).isSome ∧
     (∀ p ∈ dbAna.posts, p._id ≠ dbAna.nextId) ∧
     ∃ newPost : PostModel,
       (Mutation.createPost dbAna "hello" 0).1 = .ok newPost ∧
       newPost.content = "hello" ∧ newPost.author = 0 ∧
       Query.post (Mutation.createPost dbAna "hello" 0).2 newPost._id =
         some newPost) ∧
    ((findUser dbAna 0).isSome ∧ (findPost dbAna 1).isSome ∧
     (∀ c ∈ dbAna.comments, c._id ≠ dbAna.nextId) ∧
     ∃ newComment : CommentModel,
       (Mutation.createComment dbAna "nice" 0 1).1 = .ok newComment ∧
       newComment.text = "nice" ∧ newComment.author = 0 ∧
       newComment.post = 1 ∧
       Query.comment (Mutation.createComment dbAna "nice" 0 1).2
         newComment._id = some newComment) :=
  ⟨⟨by decide, by decide,
    (create_get_roundtrip (fun s => s) dbAna).1 "Bob" "bob@x.com" "pw"
      (by decide) (by decide)⟩,
   ⟨by decide, by decide,
    (create_get_roundtrip (fun s => s) dbAna).2.1 "hello" 0
      (by decide) (by decide)⟩,
   ⟨by decide, by decide, by decide,
    (create_get_roundtrip (fun s => s) dbAna).2.2 "nice" 0 1
      (by decide) (by decide) (by decide)⟩⟩

/-- Claim C6: `deleteComment` fails with the comment-does-not-exist error
when no comment has that id; on an existing (uniquely identified) comment
it returns `true`, the comment is absent from a subsequent lookup, and the
id is pulled from the parent post's comment array. -/
theorem deleteComment_spec (db : DB) :
    (∀ commentId : OId, (∀ c ∈ db.comments, c._id ≠ commentId) →
      Mutation.deleteComment db commentId =
        (.error ⟨"El comentario no existe"⟩, db)) ∧
    (∀ (commentId : OId) (c : CommentModel),
      findComment db commentId = some c →
      (db.comments.filter (fun x => x._id == commentId)).length ≤ 1 →
      (Mutation.deleteComment db commentId).1 = .ok true ∧
      findComment (Mutation.deleteComment db commentId).2 commentId = none ∧
      ∀ pp : PostModel, findPost db c.post = some pp →
        findPost (Mutation.deleteComment db commentId).2 c.post =
          some { pp with comments :=
            pp.comments.filter (fun x => x != commentId) }) := by
  constructor
  · intro commentId h
    have hn : findComment db commentId = none := by
      rw [findComment, List.find?_eq_none]
      intro c hc
      simpa using h c hc
    simp [Mutation.deleteComment, hn]
  · intro commentId c hc hle
    have hc' : db.comments.find? (fun x => x._id == commentId) = some c := hc
    have hmem : c ∈ db.comments := List.mem_of_find?_eq_some hc'
    have hpc := List.find?_some hc'
    have hcount :
        (deleteFirst (fun x : CommentModel => x._id == commentId)
          db.comments).2 = 1 :=
      (deleteFirst_count_eq_one _ _).mpr ⟨c, hmem, hpc⟩
    refine ⟨?_, ?_, ?_⟩
    · simp [Mutation.deleteComment, hc, hcount]
    · have habs := find?_deleteFirst_of_unique
        (fun x : CommentModel => x._id == commentId) db.comments hle
      have hcm : (Mutation.deleteComment db commentId).2.comments =
          (deleteFirst (fun x : CommentModel => x._id == commentId)
            db.comments).1 := by
        simp [Mutation.deleteComment, hc, hcount]
      show (Mutation.deleteComment db commentId).2.comments.find?
        (fun x => x._id == commentId) = none
      rw [hcm]
      exact habs
    · intro pp hpp
      have hpp' : db.posts.find? (fun p => p._id == c.post) = some pp := hpp
      have hf : ∀ p : PostModel, (p._id == c.post) = true →
          (({ p with comments :=
              p.comments.filter (fun x => x != commentId) } :
            PostModel)._id == c.post) = true := fun p hp => hp
      have hup := find?_updateFirst (fun p : PostModel => p._id == c.post)
        (fun p => { p with comments :=
          p.comments.filter (fun x => x != commentId) }) hf db.posts
      have hpm : (Mutation.deleteComment db commentId).2.posts =
          updateFirst (fun p : PostModel => p._id == c.post)
            (fun p => { p with comments :=
              p.comments.filter (fun x => x != commentId) }) db.posts := by
        simp [Mutation.deleteComment, hc, hcount]
      show (Mutation.deleteComment db commentId).2.posts.find?
          (fun p => p._id == c.post) =
        some { pp with comments :=
          pp.comments.filter (fun x => x != commentId) }
      rw [hpm, hup, hpp']
      rfl

/-- Witness for C6: on `dbWithComment`, deleting the missing comment 99
fails, while deleting comment 2 succeeds, removes it, and pulls it from
post 1's comment array. -/
theorem deleteComment_spec_witness :
    ((∀ c ∈ dbWithComment.comments, c._id ≠ 99) ∧
      Mutation.deleteComment dbWithComment 99 =
        (.error ⟨"El comentario no existe"⟩, dbWithComment)) ∧
    (findComment dbWithComment 2 = some ⟨2, "nice", 0, 1⟩ ∧
     (dbWithComment.comments.filter (fun x => x._id == 2)).length ≤ 1 ∧
     (Mutation.deleteComment dbWithComment 2).1 = .ok true ∧
     findComment (Mutation.deleteComment dbWithComment 2).2 2 = none ∧
     ∀ pp : PostModel,
       findPost dbWithComment (CommentModel.post ⟨2, "nice", 0, 1⟩) =
         some pp →
       findPost (Mutation.deleteComment dbWithComment 2).2
           (CommentModel.post ⟨2, "nice", 0, 1⟩) =
         some { pp with comments := pp.comments.filter (fun x => x != 2) }) :=
  ⟨⟨by decide, (deleteComment_spec dbWithComment).1 99 (by decide)⟩,
   by
    have h := (deleteComment_spec dbWithComment).2 2 ⟨2, "nice", 0, 1⟩
      (by decide) (by decide)
    exact ⟨by decide, by decide, h.1, h.2.1, h.2.2⟩⟩

/-- Claim C7: `createComment` fails with the author-does-not-exist error
when `authorId` resolves to no user, fails with the post-does-not-exist
error when `postId` resolves to no post, and in either failure case
inserts nothing and leaves the store unchanged; on success it inserts the
comment and appends its new id to the parent post's comment array. -/
theorem createComment_spec (db : DB) :
    (∀ (text : String) (authorId postId : OId),
      findUser db authorId = none →
      Mutation.createComment db text authorId postId =
        (.error ⟨"El autor no existe"⟩, db)) ∧
    (∀ (text : String) (authorId postId : OId),
      (findUser db authorId).isSome → findPost db postId = none →
      Mutation.createComment db text authorId postId =
        (.error ⟨"El post no existe"⟩, db)) ∧
    (∀ (text : String) (authorId postId : OId) (pp : PostModel),
      (findUser db authorId).isSome → findPost db postId = some pp →
      ∃ newComment : CommentModel,
        newComment = ⟨db.nextId, text, authorId, postId⟩ ∧
        Mutation.createComment db text authorId postId =
          (.ok newComment,
           { db with comments := db.comments ++ [newComment],
                     nextId := db.nextId + 1,
                     posts := updateFirst (fun p => p._id == postId)
                       (fun p => { p with
                         comments := p.comments ++ [db.nextId] })
                       db.posts }) ∧
        findPost (Mutation.createComment db text authorId postId).2 postId =
          some { pp with comments := pp.comments ++ [db.nextId] }) := by
  refine ⟨?_, ?_, ?_⟩
  · intro text authorId postId ha
    simp [Mutation.createComment, ha]
  · intro text authorId postId ha hp
    rcases ha' : findUser db authorId with _ | a
    · rw [ha'] at ha
      simp at ha
    · simp [Mutation.createComment, ha', hp]
  · intro text authorId postId pp ha hp
    rcases ha' : findUser db authorId with _ | a
    · rw [ha'] at ha
      simp at ha
    · refine ⟨⟨db.nextId, text, authorId, postId⟩, rfl, ?_, ?_⟩
      · simp [Mutation.createComment, ha', hp]
      · have hpp' : db.posts.find? (fun p => p._id == postId) = some pp := hp
        have hf : ∀ p : PostModel, (p._id == postId) = true →
            (({ p with comments := p.comments ++ [db.nextId] } :
              PostModel)._id == postId) = true := fun p h => h
        have hup := find?_updateFirst (fun p : PostModel => p._id == postId)
          (fun p => { p with comments := p.comments ++ [db.nextId] })
          hf db.posts
        have hpm : (Mutation.createComment db text authorId postId).2.posts =
            updateFirst (fun p : PostModel => p._id == postId)
              (fun p => { p with comments := p.comments ++ [db.nextId] })
              db.posts := by
          simp [Mutation.createComment, ha', hp]
        show (Mutation.createComment db text authorId postId).2.posts.find?
            (fun p => p._id == postId) =
          some { pp with comments := pp.comments ++ [db.nextId] }
        rw [hpm, hup, hpp']
        rfl

/-- Witness for C7: on `dbAna`, a comment with missing author 99 fails, a
comment by user 0 on missing post 99 fails, and a comment by user 0 on
post 1 succeeds and is appended to the post's comment array. -/
theorem createComment_spec_witness :
    (findUser dbAna 99 = none ∧
      Mutation.createComment dbAna "x" 99 1 =
        (.error ⟨"El autor no existe"⟩, dbAna)) ∧
    ((findUser dbAna 0).isSome ∧ findPost dbAna 99 = none ∧
      Mutation.createComment dbAna "x" 0 99 =
        (.error ⟨"El post no existe"⟩, dbAna)) ∧
    ((findUser dbAna 0).isSome ∧
      findPost dbAna 1 = some ⟨1, "hi", 0, [], []⟩ ∧
      ∃ newComment : CommentModel,
        newComment = ⟨dbAna.nextId, "nice", 0, 1⟩ ∧
        Mutation.createComment dbAna "nice" 0 1 =
          (.ok newComment,
           { dbAna with comments := dbAna.comments ++ [newComment],
                        nextId := dbAna.nextId + 1,
                        posts := updateFirst (fun p => p._id == 1)
                          (fun p => { p with
                            comments := p.comments ++ [dbAna.nextId] })
                          dbAna.posts }) ∧
        findPost (Mutation.createComment dbAna "nice" 0 1).2 1 =
          some { (⟨1, "hi", 0, [], []⟩ : PostModel) with
            comments := (⟨1, "hi", 0, [], []⟩ : PostModel).comments ++
              [dbAna.nextId] }) :=
  ⟨⟨by decide, (createComment_spec dbAna).1 "x" 99 1 (by decide)⟩,
   ⟨by decide, by decide,
    (createComment_spec dbAna).2.1 "x" 0 99 (by decide) (by decide)⟩,
   ⟨by decide, by decide,
    (createComment_spec dbAna).2.2 "nice" 0 1 ⟨1, "hi", 0, [], []⟩
      (by decide) (by decide)⟩⟩

/-- Claim C8: for every existing row, `updateUser`, `updatePost` and
`updateComment` return the PRE-update snapshot of the row (the document as
it was before the overwrite), not the updated row — the store itself holds
the updated document afterwards. -/
theorem update_returns_pre_update_snapshot (hashFn : String → String)
    (db : DB) :
    (∀ (userId : OId) (name email password : String) (u : UserModel),
      findUser db userId = some u →
      (email = "" ∨ ∀ x ∈ db.users, x.email ≠ email) →
      (Mutation.updateUser hashFn db userId name email password).1 =
        .ok (some u) ∧
      findUser (Mutation.updateUser hashFn db userId name email password).2
        userId = some { u with name := name, email := email,
                               password := hashFn password }) ∧
    (∀ (postId : OId) (content : String) (p : PostModel),
      findPost db postId = some p →
      (Mutation.updatePost db postId content).1 = some p ∧
      findPost (Mutation.updatePost db postId content).2 postId =
        some { p with content := content }) ∧
    (∀ (commentId : OId) (text : String) (c : CommentModel),
      findComment db commentId = some c →
      (Mutation.updateComment db commentId text).1 = some c ∧
      findComment (Mutation.updateComment db commentId text).2 commentId =
        some { c with text := text }) := by
  refine ⟨?_, ?_, ?_⟩
  · intro userId name email password u hu hcheck
    have hu' : db.users.find? (fun x => x._id == userId) = some u := hu
    have hf : ∀ x : UserModel, (x._id == userId) = true →
        (({ x with name := name, email := email, password := hashFn password } : UserModel)._id == userId) = true :=
      fun x h => h
    have h1 := findOneAndUpdateList_fst (fun x : UserModel => x._id == userId)
      (fun x => { x with name := name, email := email, password := hashFn password }) db.users
    have h2 := find?_findOneAndUpdateList_snd
      (fun x : UserModel => x._id == userId)
      (fun x => { x with name := name, email := email, password := hashFn password }) hf db.users
    have hred : Mutation.updateUser hashFn db userId name email password =
        (.ok (findOneAndUpdateList (fun x : UserModel => x._id == userId)
            (fun x => { x with name := name, email := email, password := hashFn password }) db.users).1,
         { db with users := (findOneAndUpdateList
            (fun x : UserModel => x._id == userId)
            (fun x => { x with name := name, email := email, password := hashFn password })
            db.users).2 }) := by
      rcases hcheck with he | hne
      · simp [Mutation.updateUser, he]
      · by_cases hemail : email = ""
        · simp [Mutation.updateUser, hemail]
        · have hn : findUserByEmail db email = none := by
            rw [findUserByEmail, List.find?_eq_none]
            intro x hx
            simpa using hne x hx
          simp [Mutation.updateUser, hemail, hn]
    constructor
    · rw [hred]
      simp [h1, hu']
    · rw [hred]
      simp [findUser, h2, hu']
  · intro postId content p hp
    have hp' : db.posts.find? (fun x => x._id == postId) = some p := hp
    have hf : ∀ x : PostModel, (x._id == postId) = true →
        (({ x with content := content } : PostModel)._id == postId) = true :=
      fun x h => h
    have h1 := findOneAndUpdateList_fst (fun x : PostModel => x._id == postId)
      (fun x => { x with content := content }) db.posts
    have h2 := find?_findOneAndUpdateList_snd
      (fun x : PostModel => x._id == postId)
      (fun x => { x with content := content }) hf db.posts
    constructor
    · simp [Mutation.updatePost, h1, hp']
    · simp [Mutation.updatePost, findPost, h2, hp']
  · intro commentId text c hc
    have hc' : db.comments.find? (fun x => x._id == commentId) = some c := hc
    have hf : ∀ x : CommentModel, (x._id == commentId) = true →
        (({ x with text := text } : CommentModel)._id == commentId) = true :=
      fun x h => h
    have h1 := findOneAndUpdateList_fst
      (fun x : CommentModel => x._id == commentId)
      (fun x => { x with text := text }) db.comments
    have h2 := find?_findOneAndUpdateList_snd
      (fun x : CommentModel => x._id == commentId)
      (fun x => { x with text := text }) hf db.comments
    constructor
    · simp [Mutation.updateComment, h1, hc']
    · simp [Mutation.updateComment, findComment, h2, hc']

/-- Witness for C8: on `dbWithComment`, updating user 0 (empty email),
post 1 and comment 2 each return the prior document while the store holds
the updated one. -/
theorem update_returns_pre_update_snapshot_witness :
    (findUser dbWithComment 0 = some ⟨0, "Ana", "ana@x.com", "h", [], [], []⟩ ∧
     (("" : String) = "" ∨ ∀ x ∈ dbWithComment.users, x.email ≠ "") ∧
     (Mutation.updateUser (fun s => s) dbWithComment 0 "Ann" "" "pw2").1 =
       .ok (some ⟨0, "Ana", "ana@x.com", "h", [], [], []⟩) ∧
     findUser (Mutation.updateUser (fun s => s) dbWithComment 0 "Ann" ""
         "pw2").2 0 =
       some { (⟨0, "Ana", "ana@x.com", "h", [], [], []⟩ : UserModel) with
         name := "Ann", email := "", password := (fun s : String => s) "pw2" }) ∧
    (findPost dbWithComment 1 = some ⟨1, "hi", 0, [2], []⟩ ∧
     (Mutation.updatePost dbWithComment 1 "new").1 =
       some ⟨1, "hi", 0, [2], []⟩ ∧
     findPost (Mutation.updatePost dbWithComment 1 "new").2 1 =
       some { (⟨1, "hi", 0, [2], []⟩ : PostModel) with content := "new" }) ∧
    (findComment dbWithComment 2 = some ⟨2, "nice", 0, 1⟩ ∧
     (Mutation.updateComment dbWithComment 2 "edited").1 =
       some ⟨2, "nice", 0, 1⟩ ∧
     findComment (Mutation.updateComment dbWithComment 2 "edited").2 2 =
       some { (⟨2, "nice", 0, 1⟩ : CommentModel) with text := "edited" }) := by
  have h := update_returns_pre_update_snapshot (fun s => s) dbWithComment
  refine ⟨⟨by decide, Or.inl rfl, ?_⟩, ⟨by decide, ?_⟩, ⟨by decide, ?_⟩⟩
  · exact h.1 0 "Ann" "" "pw2" ⟨0, "Ana", "ana@x.com", "h", [], [], []⟩
      (by decide) (Or.inl rfl)
  · exact h.2.1 1 "new" ⟨1, "hi", 0, [2], []⟩ (by decide)
  · exact h.2.2 2 "edited" ⟨2, "nice", 0, 1⟩ (by decide)

/-- Claim C9: `deleteUser` and `deletePost` return `true` iff exactly one
row was removed (a row with that id existed), and return `false` with the
store unchanged — rather than raising an error — when zero rows match. -/
theorem delete_returns_bool_iff_removed (db : DB) :
    (∀ i : OId,
      ((Mutation.deleteUser db i).1 = true ↔ ∃ u ∈ db.users, u._id = i)) ∧
    (∀ i : OId, (∀ u ∈ db.users, u._id ≠ i) →
      Mutation.deleteUser db i = (false, db)) ∧
    (∀ i : OId,
      ((Mutation.deletePost db i).1 = true ↔ ∃ p ∈ db.posts, p._id = i)) ∧
    (∀ i : OId, (∀ p ∈ db.posts, p._id ≠ i) →
      Mutation.deletePost db i = (false, db)) := by
  refine ⟨?_, ?_, ?_, ?_⟩
  · intro i
    have h := deleteFirst_count_eq_one (fun u : UserModel => u._id == i)
      db.users
    constructor
    · intro ht
      have h1 : (deleteFirst (fun u : UserModel => u._id == i)
          db.users).2 = 1 := by
        simpa [Mutation.deleteUser] using ht
      rcases h.mp h1 with ⟨u, hu, hpu⟩
      exact ⟨u, hu, by simpa using hpu⟩
    · rintro ⟨u, hu, rfl⟩
      have h1 : (deleteFirst (fun x : UserModel => x._id == u._id)
          db.users).2 = 1 := h.mpr ⟨u, hu, by simp⟩
      simp [Mutation.deleteUser, h1]
  · intro i hnone
    have hn : db.users.find? (fun u => u._id == i) = none := by
      rw [List.find?_eq_none]
      intro u hu
      simpa using hnone u hu
    have hd := deleteFirst_of_none (fun u : UserModel => u._id == i)
      db.users hn
    simp [Mutation.deleteUser, hd]
  · intro i
    have h := deleteFirst_count_eq_one (fun p : PostModel => p._id == i)
      db.posts
    constructor
    · intro ht
      have h1 : (deleteFirst (fun p : PostModel => p._id == i)
          db.posts).2 = 1 := by
        simpa [Mutation.deletePost] using ht
      rcases h.mp h1 with ⟨p, hp, hpp⟩
      exact ⟨p, hp, by simpa using hpp⟩
    · rintro ⟨p, hp, rfl⟩
      have h1 : (deleteFirst (fun x : PostModel => x._id == p._id)
          db.posts).2 = 1 := h.mpr ⟨p, hp, by simp⟩
      simp [Mutation.deletePost, h1]
  · intro i hnone
    have hn : db.posts.find? (fun p => p._id == i) = none := by
      rw [List.find?_eq_none]
      intro p hp
      simpa using hnone p hp
    have hd := deleteFirst_of_none (fun p : PostModel => p._id == i)
      db.posts hn
    simp [Mutation.deletePost, hd]

/-- Witness for C9: on `dbAna`, deleting the existing user 0 / post 1
satisfies the iff, and deleting the missing id 99 returns `false` with the
store unchanged. -/
theorem delete_returns_bool_iff_removed_witness :
    ((Mutation.deleteUser dbAna 0).1 = true ↔ ∃ u ∈ dbAna.users, u._id = 0) ∧
    ((∀ u ∈ dbAna.users, u._id ≠ 99) ∧
      Mutation.deleteUser dbAna 99 = (false, dbAna)) ∧
    ((Mutation.deletePost dbAna 1).1 = true ↔ ∃ p ∈ dbAna.posts, p._id = 1) ∧
    ((∀ p ∈ dbAna.posts, p._id ≠ 99) ∧
      Mutation.deletePost dbAna 99 = (false, dbAna)) :=
  ⟨(delete_returns_bool_iff_removed dbAna).1 0,
   ⟨by decide, (delete_returns_bool_iff_removed dbAna).2.1 99 (by decide)⟩,
   (delete_returns_bool_iff_removed dbAna).2.2.1 1,
   ⟨by decide, (delete_returns_bool_iff_removed dbAna).2.2.2 99 (by decide)⟩⟩

theorem usersRefArraysEmpty_of_users_eq {db db' : DB}
    (h : db'.users = db.users) (E : UsersRefArraysEmpty db) :
    UsersRefArraysEmpty db' := by
  intro u hu
  rw [h] at hu
  exact E u hu

/-- Claim C10: no mutation ever writes to a user document's `posts`,
`comments` or `likedPosts` arrays after `createUser` (every mutation
preserves the all-arrays-empty state), and the `User.posts`,
`User.comments` and `User.likedPosts` field resolvers depend only on the
parent's id — never on those arrays. -/
theorem user_ref_arrays_never_written (hashFn : String → String) (db : DB)
    (E : UsersRefArraysEmpty db)
    (name email password content text : String)
    (i authorId postId userId : OId) (parent : UserModel)
    (l1 l2 l3 : List OId) :
    UsersRefArraysEmpty (Mutation.createUser hashFn db name email password).2 ∧
    UsersRefArraysEmpty (Mutation.updateUser hashFn db i name email password).2 ∧
    UsersRefArraysEmpty (Mutation.deleteUser db i).2 ∧
    UsersRefArraysEmpty (Mutation.createPost db content authorId).2 ∧
    UsersRefArraysEmpty (Mutation.updatePost db i content).2 ∧
    UsersRefArraysEmpty (Mutation.deletePost db i).2 ∧
    UsersRefArraysEmpty (Mutation.addLikeToPost db postId userId).2 ∧
    UsersRefArraysEmpty (Mutation.removeLikeFromPost db postId userId).2 ∧
    UsersRefArraysEmpty (Mutation.createComment db text authorId postId).2 ∧
    UsersRefArraysEmpty (Mutation.updateComment db i text).2 ∧
    UsersRefArraysEmpty (Mutation.deleteComment db i).2 ∧
    User.posts db { parent with posts := l1, comments := l2, likedPosts := l3 } = User.posts db parent ∧
    User.comments db { parent with posts := l1, comments := l2, likedPosts := l3 } = User.comments db parent ∧
    User.likedPosts db { parent with posts := l1, comments := l2, likedPosts := l3 } = User.likedPosts db parent := by
  refine ⟨?_, ?_, ?_, ?_, ?_, ?_, ?_, ?_, ?_, ?_, ?_, rfl, rfl, rfl⟩
  · -- createUser
    rcases h : findUserByEmail db email with _ | v
    · intro u hu
      have hu' : u ∈ db.users ++
          [⟨db.nextId, name, email, hashFn password, [], [], []⟩] := by
        simpa [Mutation.createUser, h] using hu
      rcases List.mem_append.mp hu' with h' | h'
      · exact E u h'
      · simp at h'
        subst h'
        exact ⟨rfl, rfl, rfl⟩
    · have : (Mutation.createUser hashFn db name email password).2.users =
          db.users := by
        simp [Mutation.createUser, h]
      exact usersRefArraysEmpty_of_users_eq this E
  · -- updateUser
    by_cases he : email = ""
    · intro u hu
      have hu' : u ∈ (findOneAndUpdateList (fun x : UserModel => x._id == i)
          (fun x => { x with name := name, email := email, password := hashFn password })
          db.users).2 := by
        simpa [Mutation.updateUser, he] using hu
      rcases mem_findOneAndUpdateList_snd hu' with h' | ⟨x, hx, rfl⟩
      · exact E u h'
      · exact E x hx
    · rcases hm : findUserByEmail db email with _ | v
      · intro u hu
        have hu' : u ∈ (findOneAndUpdateList (fun x : UserModel => x._id == i)
            (fun x => { x with name := name, email := email, password := hashFn password })
            db.users).2 := by
          simpa [Mutation.updateUser, he, hm] using hu
        rcases mem_findOneAndUpdateList_snd hu' with h' | ⟨x, hx, rfl⟩
        · exact E u h'
        · exact E x hx
      · have : (Mutation.updateUser hashFn db i name email password).2.users =
            db.users := by
          simp [Mutation.updateUser, he, hm, jsStrictEq]
        exact usersRefArraysEmpty_of_users_eq this E
  · -- deleteUser
    intro u hu
    have hu' : u ∈ (deleteFirst (fun x : UserModel => x._id == i)
        db.users).1 := by
      simpa [Mutation.deleteUser] using hu
    exact E u (mem_deleteFirst_fst hu')
  · -- createPost
    have : (Mutation.createPost db content authorId).2.users = db.users := by
      rcases h : findUser db authorId with _ | a <;>
        simp [Mutation.createPost, h]
    exact usersRefArraysEmpty_of_users_eq this E
  · -- updatePost
    exact usersRefArraysEmpty_of_users_eq rfl E
  · -- deletePost
    exact usersRefArraysEmpty_of_users_eq rfl E
  · -- addLikeToPost
    have : (Mutation.addLikeToPost db postId userId).2.users = db.users := by
      rcases h : findPost db postId with _ | p
      · simp [Mutation.addLikeToPost, h]
      · simp only [Mutation.addLikeToPost, h]
        split <;> rfl
    exact usersRefArraysEmpty_of_users_eq this E
  · -- removeLikeFromPost
    have : (Mutation.removeLikeFromPost db postId userId).2.users =
        db.users := by
      rcases h : findPost db postId with _ | p
      · simp [Mutation.removeLikeFromPost, h]
      · simp only [Mutation.removeLikeFromPost, h]
        split <;> rfl
    exact usersRefArraysEmpty_of_users_eq this E
  · -- createComment
    have : (Mutation.createComment db text authorId postId).2.users =
        db.users := by
      rcases ha : findUser db authorId with _ | a
      · simp [Mutation.createComment, ha]
      · rcases hp : findPost db postId with _ | pp <;>
          simp [Mutation.createComment, ha, hp]
    exact usersRefArraysEmpty_of_users_eq this E
  · -- updateComment
    exact usersRefArraysEmpty_of_users_eq rfl E
  · -- deleteComment
    have : (Mutation.deleteComment db i).2.users = db.users := by
      rcases h : findComment db i with _ | c
      · simp [Mutation.deleteComment, h]
      · simp only [Mutation.deleteComment, h]
        split <;> rfl
    exact usersRefArraysEmpty_of_users_eq this E

/-- Witness for C10: on `dbWithComment` (whose only user has empty
reference arrays) every mutation preserves emptiness and the three user
field resolvers ignore the parent's arrays. -/
theorem user_ref_arrays_never_written_witness :
    UsersRefArraysEmpty dbWithComment ∧
    (UsersRefArraysEmpty
      (Mutation.createUser (fun s => s) dbWithComment "Bob" "b@x.com" "pw").2 ∧
     UsersRefArraysEmpty
      (Mutation.updateUser (fun s => s) dbWithComment 0 "Bob" "b@x.com" "pw").2 ∧
     UsersRefArraysEmpty (Mutation.deleteUser dbWithComment 0).2 ∧
     UsersRefArraysEmpty (Mutation.createPost dbWithComment "c" 0).2 ∧
     UsersRefArraysEmpty (Mutation.updatePost dbWithComment 0 "c").2 ∧
     UsersRefArraysEmpty (Mutation.deletePost dbWithComment 0).2 ∧
     UsersRefArraysEmpty (Mutation.addLikeToPost dbWithComment 1 0).2 ∧
     UsersRefArraysEmpty (Mutation.removeLikeFromPost dbWithComment 1 0).2 ∧
     UsersRefArraysEmpty (Mutation.createComment dbWithComment "t" 0 1).2 ∧
     UsersRefArraysEmpty (Mutation.updateComment dbWithComment 0 "t").2 ∧
     UsersRefArraysEmpty (Mutation.deleteComment dbWithComment 0).2 ∧
     User.posts dbWithComment { (⟨7, "X", "x@x.com", "h", [], [], []⟩ : UserModel) with posts := [5], comments := [6], likedPosts := [7] } = User.posts dbWithComment ⟨7, "X", "x@x.com", "h", [], [], []⟩ ∧
     User.comments dbWithComment { (⟨7, "X", "x@x.com", "h", [], [], []⟩ : UserModel) with posts := [5], comments := [6], likedPosts := [7] } = User.comments dbWithComment ⟨7, "X", "x@x.com", "h", [], [], []⟩ ∧
     User.likedPosts dbWithComment { (⟨7, "X", "x@x.com", "h", [], [], []⟩ : UserModel) with posts := [5], comments := [6], likedPosts := [7] } = User.likedPosts dbWithComment ⟨7, "X", "x@x.com", "h", [], [], []⟩) :=
  ⟨by unfold UsersRefArraysEmpty; decide,
   user_ref_arrays_never_written (fun s => s) dbWithComment
     (by unfold UsersRefArraysEmpty; decide)
     "Bob" "b@x.com" "pw" "c" "t" 0 0 1 0
     ⟨7, "X", "x@x.com", "h", [], [], []⟩ [5] [6] [7]⟩

end Practica5
